import Mathlib

/-!
Shallow embedding of the clipboard-history utility (Python) in Lean 4.

Modules embedded:
* `src/src/utils/categorizer.py`   — `ContentCategorizer.categorize_text`
* `src/backgroundapp.py`           — `ClipboardManager.categorize_content`,
                                     `ClipboardManager.monitor_clipboard`,
                                     `ClipboardManager.add_clipboard_item`
* `src/src/core/clipboard_monitor.py` — `ClipboardMonitor` (start/stop, loop)
* `src/basicmonitor.py`            — `monitor_clipboard` (same dedup logic)
* `src/src/core/data_manager.py`   — `ClipboardDataManager` (SQLite store)

Conventions of the embedding:
* Python strings are Lean `String` / `List Char`.  `str.strip()` is modelled
  over the ASCII whitespace characters (space, tab, newline, carriage return,
  vertical tab, form feed); the categorized clipboard text is ordinary text,
  for which this matches Python's Unicode stripping.
* Regular-expression searches are unfolded to their exact language on the
  stripped text (each unfolding is justified in a comment at the definition).
* SQLite state (`clipboard_items` table) is a list of `(rowid, row)` pairs in
  insertion order together with the next AUTOINCREMENT id.  The
  `created_at DESC` ordering used by every SELECT is modelled as reverse
  insertion order (each row's implicit `created_at` is taken at insertion
  time, so it is monotone in rowid).
* SQLite `LIKE` is modelled by `likeMatch`: `%` matches any sequence, `_`
  any single character, other characters compare ASCII-case-insensitively
  (SQLite's default `LIKE` folds case only for ASCII).
-/

/-- The apostrophe character `'`, written via its code point. -/
def squote : Char := Char.ofNat 39

/-- The double-quote character `"`, written via its code point. -/
def dquote : Char := Char.ofNat 34

/-- ASCII whitespace, the characters removed by Python `str.strip()` (on
ASCII text) and separating words in `str.split()`. -/
def isPySpace (c : Char) : Bool :=
  c = ' ' || c = '\t' || c = '\n' || c = '\r' || c.toNat = 11 || c.toNat = 12

/-- Python `str.strip()`: drop leading and trailing whitespace. -/
def strip (s : List Char) : List Char :=
  ((s.dropWhile isPySpace).reverse.dropWhile isPySpace).reverse

/-- `isPrefixB p s`: `p` is a (case-sensitive) prefix of `s`. -/
def isPrefixB : List Char → List Char → Bool
  | [], _ => true
  | _ :: _, [] => false
  | a :: p, c :: s => a == c && isPrefixB p s

/-- `containsSub pat s`: `pat` occurs as a contiguous substring of `s`
(Python's `pat in s`). -/
def containsSub (pat : List Char) : List Char → Bool
  | [] => isPrefixB pat []
  | c :: rest => isPrefixB pat (c :: rest) || containsSub pat rest

/-- Python `pat in s` on `String`s. -/
def containsStr (pat s : String) : Bool :=
  containsSub pat.toList s.toList

/-- `startsNonspaceAfter pre s`: `s` starts with `pre` followed by at least
one non-whitespace character — i.e. the regex `pre\S+` matches at the start
of `s` (`\S+` needs one non-space character; further `\S*` is irrelevant to
a search's success). -/
def startsNonspaceAfter : List Char → List Char → Bool
  | [], [] => false
  | [], c :: _ => !isPySpace c
  | _ :: _, [] => false
  | a :: p, c :: s => a == c && startsNonspaceAfter p s

/-- One position of `re.search(r"https?://\S+|www\.\S+", text)`: the
alternation matches here iff `http://`, `https://` or `www.` starts here
and is followed by a non-space character. -/
def urlHere (s : List Char) : Bool :=
  startsNonspaceAfter "http://".toList s ||
  startsNonspaceAfter "https://".toList s ||
  startsNonspaceAfter "www.".toList s

/-- `re.search(r"https?://\S+|www\.\S+", text)` succeeds: some position of
`text` matches `urlHere`. -/
def hasURL : List Char → Bool
  | [] => false
  | c :: rest => urlHere (c :: rest) || hasURL rest

/-- The keyword alternation of `categorize_text`'s regex
`(def |function |public |class |#include|import )`; a search succeeds iff
one of the six alternatives occurs as a substring. -/
def text_code_keywords : List String :=
  ["def ", "function ", "public ", "class ", "#include", "import "]

/-- The character class `[\^=+\-*/\\]` of `categorize_text`'s operator
regex. -/
def isOpChar (c : Char) : Bool :=
  c = '^' || c = '=' || c = '+' || c = '-' || c = '*' || c = '/' || c = '\\'

/-- `re.search(r"[\d\w\s]*[\^=+\-*/\\]+[\d\w\s]*", text)` succeeds iff
`text` contains at least one operator character: the two `[\d\w\s]*` parts
may match the empty string, so a match exists exactly at any occurrence of
a `[\^=+\-*/\\]` character. -/
def hasOpChar (s : List Char) : Bool :=
  s.any isOpChar

/-- `re.search(r"[.!?]$", text)` on the already-stripped `text` (no
trailing newline remains, so `$` is end-of-string): the last character is
`.`, `!` or `?`. -/
def endsSentence (s : List Char) : Bool :=
  match s.getLast? with
  | some c => c = '.' || c = '!' || c = '?'
  | none => false

/-- `countRuns inWord s` counts the maximal non-whitespace runs of `s`,
`inWord` recording whether the previous character was part of a run. -/
def countRuns : Bool → List Char → Nat
  | _, [] => 0
  | inWord, c :: rest =>
    if isPySpace c then countRuns false rest
    else (if inWord then 0 else 1) + countRuns true rest

/-- Python `len(text.split())`: the number of whitespace-separated words. -/
def wordCount (s : List Char) : Nat := countRuns false s

/-- `re.match(r"^['\"].*['\"]$", text)` on the stripped `text`: at least two
characters, first and last each a single or double quote, and (since `.`
does not match a newline) no newline strictly between them. -/
def isQuoteWrapped (s : List Char) : Bool :=
  match s with
  | [] => false
  | c :: rest =>
    match rest.getLast? with
    | none => false
    | some d =>
      (c = squote || c = dquote) && (d = squote || d = dquote) &&
        rest.dropLast.all (fun x => x ≠ '\n')

/-- The rule chain of `ContentCategorizer.categorize_text` applied to the
stripped text (`categorizer.py` lines 20–33). -/
def categorize_text_core (text : List Char) : String :=
  if hasURL text then "URL"
  else if text_code_keywords.any (fun k => containsSub k.toList text) then "Code/Math"
  else if hasOpChar text && !endsSentence text then "Code/Math"
  else if decide (wordCount text < 10) && isQuoteWrapped text then "Quote"
  else if text.isEmpty then "Empty"
  else "Plaintext"

/-- `ContentCategorizer.categorize_text` (`src/src/utils/categorizer.py`,
lines 16–33).  The input is `none` when `pd.isna(text)` holds (a missing
CSV cell); a real string is `some`.  The final `^\s*$` check on the
stripped text succeeds exactly on the empty string, since a non-empty
stripped string starts with a non-whitespace character. -/
def categorize_text (t : Option String) : String :=
  match t with
  | none => "Unknown"
  | some raw => categorize_text_core (strip raw.toList)

/-- `code_indicators` of `ClipboardManager.categorize_content`
(`src/backgroundapp.py` line 398). -/
def code_indicators : List String :=
  ["def ", "function", "class ", "\x7b", "\x7d;", "import ", "from ",
   "public ", "private ", "#include"]

/-- `latex_indicators` of `ClipboardManager.categorize_content`
(`src/backgroundapp.py` line 404). -/
def latex_indicators : List String :=
  ["\\begin\x7b", "\\end\x7b", "\\frac", "\\sum", "\\int", "\\lim", "\\mathbb"]

/-- The rule chain of `ClipboardManager.categorize_content` applied to the
stripped content (`backgroundapp.py` lines 395–414): Code indicators first,
then LaTeX indicators, then the quote-wrapping check, else Plaintext. -/
def categorize_content_core (content : List Char) : String :=
  if code_indicators.any (fun ind => containsSub ind.toList content) then "Code"
  else if latex_indicators.any (fun ind => containsSub ind.toList content) then "LaTeX"
  else if (isPrefixB [dquote] content && isPrefixB [dquote] content.reverse) ||
          (isPrefixB [squote] content && isPrefixB [squote] content.reverse) then "Quotes"
  else "Plaintext"

/-- `ClipboardManager.categorize_content` (`src/backgroundapp.py`, lines
393–414).  Python `content.startswith(q)`/`content.endswith(q)` for a
one-character `q` are prefix tests on the string and its reverse. -/
def categorize_content (content : String) : String :=
  categorize_content_core (strip content.toList)

/-- ASCII lower-casing, the case folding SQLite's default `LIKE` applies. -/
def lowerAscii (c : Char) : Char :=
  if c.toNat ≥ 65 && c.toNat ≤ 90 then Char.ofNat (c.toNat + 32) else c

/-- SQLite `LIKE` pattern matching (default, no ESCAPE): `%` matches any
sequence of characters, `_` any single character, and other characters
compare ASCII-case-insensitively. -/
def likeMatch : List Char → List Char → Bool
  | [], s => s.isEmpty
  | c :: p, s =>
    if c = '%' then s.tails.any (fun s2 => likeMatch p s2)
    else
      match s with
      | [] => false
      | d :: s2 =>
        (if c = '_' then true else lowerAscii c == lowerAscii d) && likeMatch p s2

/-- Case-insensitive (ASCII) substring containment: the reading of
"content contains `term` case-insensitively" used by the History Store
contract. -/
def containsCI (term content : String) : Bool :=
  containsSub (term.toList.map lowerAscii) (content.toList.map lowerAscii)

/-- A clipboard item dictionary, as produced by the monitors and consumed
by the data manager: keys `content`, `type`, `time`, `timestamp`, `chars`. -/
structure Item where
  content : String
  type : String
  timestamp : String
  time : String
  chars : String
deriving DecidableEq

/-- A row of the SQLite `clipboard_items` table (columns `content`, `type`,
`timestamp`, `time_formatted`, `char_count`; `id` and `created_at` are
modelled in `ClipboardDB`). -/
structure DbRow where
  content : String
  type : String
  timestamp : String
  time_formatted : String
  char_count : Nat
deriving DecidableEq

/-- The INSERT of `save_clipboard_item`/`save_clipboard_data`: column
values taken from the item dictionary, `char_count` recomputed as
`len(item["content"])`. -/
def rowOfItem (it : Item) : DbRow :=
  ⟨it.content, it.type, it.timestamp, it.time, it.content.length⟩

/-- The dictionary built from a row by every SELECT of the data manager:
`chars` is reformatted as `f"{char_count} characters"`. -/
def itemOfRow (r : DbRow) : Item :=
  ⟨r.content, r.type, r.timestamp, r.time_formatted,
   toString r.char_count ++ " characters"⟩

/-- The SQLite `clipboard_items` table: rows with their AUTOINCREMENT id in
insertion (rowid / `created_at`) order, plus the next id (the AUTOINCREMENT
sequence, which a DELETE does not reset). -/
structure ClipboardDB where
  nextId : Nat
  rows : List (Nat × DbRow)
deriving DecidableEq

/-- A freshly initialised database (`init_database`): empty table,
AUTOINCREMENT starting at 1. -/
def initDB : ClipboardDB := ⟨1, []⟩

/-- `ClipboardDataManager.save_clipboard_item` (`data_manager.py` lines
49–75): one INSERT appending a single row. -/
def save_clipboard_item (db : ClipboardDB) (item : Item) : ClipboardDB :=
  ⟨db.nextId + 1, db.rows ++ [(db.nextId, rowOfItem item)]⟩

/-- `ClipboardDataManager.clear_all_items` (`data_manager.py` lines
191–205): `DELETE FROM clipboard_items`. -/
def clear_all_items (db : ClipboardDB) : ClipboardDB :=
  ⟨db.nextId, []⟩

/-- `ClipboardDataManager.save_clipboard_data` (`data_manager.py` lines
222–250): delete every row, then insert the given items in list order. -/
def save_clipboard_data (db : ClipboardDB) (items : List Item) : ClipboardDB :=
  items.foldl save_clipboard_item (clear_all_items db)

/-- `ClipboardDataManager.load_clipboard_data` (`data_manager.py` lines
77–115): SELECT ordered by `created_at DESC` (reverse insertion order),
with `LIMIT limit` appended only when the Python value `limit` is truthy —
so `limit=0` behaves like `limit=None` and returns everything. -/
def load_clipboard_data (db : ClipboardDB) (limit : Option Nat) : List Item :=
  let all := (db.rows.map (fun pr => itemOfRow pr.2)).reverse
  match limit with
  | none => all
  | some n => if n = 0 then all else all.take n

/-- `ClipboardDataManager.search_clipboard_items` (`data_manager.py` lines
117–152): `WHERE content LIKE '%' || term || '%' ORDER BY created_at DESC`. -/
def search_clipboard_items (db : ClipboardDB) (term : String) : List Item :=
  ((db.rows.map (fun pr => itemOfRow pr.2)).filter
    (fun it => likeMatch ('%' :: (term.toList ++ ['%'])) it.content.toList)).reverse

/-- `ClipboardDataManager.filter_by_type` (`data_manager.py` lines
154–189): `WHERE type = ? ORDER BY created_at DESC`. -/
def filter_by_type (db : ClipboardDB) (content_type : String) : List Item :=
  ((db.rows.map (fun pr => itemOfRow pr.2)).filter
    (fun it => it.type == content_type)).reverse

/-- `ClipboardDataManager.get_item_count` (`data_manager.py` lines
207–220): `SELECT COUNT(*)`. -/
def get_item_count (db : ClipboardDB) : Nat :=
  db.rows.length

/-- `ClipboardManager.add_clipboard_item` (`src/src/ui/main_window.py`
lines 192–202): prepend the item to the in-memory list, then persist the
whole list through the bulk `save_clipboard_data`.  State is the pair
(in-memory `clipboard_items`, database). -/
def add_clipboard_item (mem : List Item) (db : ClipboardDB) (item : Item) :
    List Item × ClipboardDB :=
  let mem' := item :: mem
  (mem', save_clipboard_data db mem')

/-- The clipboard-monitor state (`src/src/core/clipboard_monitor.py`):
the `monitoring_active` flag read by the polling loop at each iteration
boundary. -/
structure MonitorState where
  monitoring_active : Bool
deriving DecidableEq

/-- A freshly constructed `ClipboardMonitor` (`__init__`, lines 19–29):
`monitoring_active = False`, no thread. -/
def initMonitor : MonitorState := ⟨false⟩

/-- `ClipboardMonitor.start_monitoring` (lines 31–37): sets the flag and
spawns the loop thread only when not already active. -/
def start_monitoring (m : MonitorState) : MonitorState :=
  if m.monitoring_active then m else ⟨true⟩

/-- `ClipboardMonitor.stop_monitoring` (lines 39–41): clears the flag. -/
def stop_monitoring (_m : MonitorState) : MonitorState :=
  ⟨false⟩

/-- The body of the polling loop shared by all three monitors
(`clipboard_monitor.py` lines 51–79, `basicmonitor.py` lines 19–51,
`backgroundapp.py` lines 355–384), as a fold over the sequence of values
read from the clipboard at consecutive polls.  State: `prev` is
`previous_content`, `seen` is the `seen_entries` set (a list of the values
added, membership via `current not in seen_entries`).  The returned list
holds the accepted (emitted / logged) contents in order. -/
def monitorRun (prev : String) (seen : List String) : List String → List String
  | [] => []
  | c :: rest =>
    if c ≠ prev ∧ c ∉ seen then
      c :: monitorRun c (c :: seen) rest
    else
      monitorRun prev seen rest

/-- The monitor's loop from its initialisation (lines 51–52 /
`basicmonitor.py` 19–23): `previous_content` is the clipboard value at
startup and `seen_entries = {previous_content}`. -/
def monitorAccepted (init : String) (polls : List String) : List String :=
  monitorRun init [init] polls

/-- The polling loop with a pending stop request: the
`while self.monitoring_active` flag is observed false from the `k`-th
iteration boundary on (cooperative cancellation — the loop exits at that
boundary and performs no further clipboard read). -/
def monitorRunStopped (prev : String) (seen : List String) :
    List String → Nat → List String
  | _, 0 => []
  | [], _ + 1 => []
  | c :: rest, k + 1 =>
    if c ≠ prev ∧ c ∉ seen then
      c :: monitorRunStopped c (c :: seen) rest k
    else
      monitorRunStopped prev seen rest k

/-- Two concrete clipboard items used by counterexamples. -/
def itemA : Item := ⟨"A", "Plaintext", "2025-01-01T01:00:00", "01:00 PM", "1 characters"⟩

/-- Second concrete clipboard item. -/
def itemB : Item := ⟨"B", "Plaintext", "2025-01-01T01:01:00", "01:01 PM", "1 characters"⟩

/-- A store holding exactly one persisted entry, `itemA`, with rowid 1. -/
def dbA : ClipboardDB := save_clipboard_item initDB itemA

/-- A concrete item whose content `"aXb"` does not contain `"a%b"`. -/
def itemX : Item := ⟨"aXb", "Plaintext", "2025-01-01T01:02:00", "01:02 PM", "3 characters"⟩

/-- A store holding exactly the entry `itemX`. -/
def dbX : ClipboardDB := save_clipboard_item initDB itemX

/-- Every branch of the backgroundapp rule chain returns one of the four
labels. -/
lemma categorize_content_core_cases (l : List Char) :
    categorize_content_core l = "Code" ∨ categorize_content_core l = "LaTeX" ∨
    categorize_content_core l = "Quotes" ∨ categorize_content_core l = "Plaintext" := by
  unfold categorize_content_core
  split_ifs <;> simp

/-- If `s` is all whitespace, stripping leaves nothing. -/
lemma strip_eq_nil_of_all_space (s : List Char) (h : s.all isPySpace = true) :
    strip s = [] := by
  have h1 : s.dropWhile isPySpace = [] := by
    simp only [List.dropWhile_eq_nil_iff]
    exact fun x hx => List.all_eq_true.mp h x hx
  unfold strip
  rw [h1]
  rfl

/-- C3 (corrected): `categorize_content` checks its Code indicators — which
include the bare brace character — before its LaTeX indicators, so on the
spec's example `"\frac{a}{b} def foo()"` it returns `"Code"`, not
`"LaTeX"`; the utils `categorize_text` has no LaTeX category at all and
returns `"Code/Math"` there. -/
theorem c3_counterexample :
    categorize_content "\\frac\x7ba\x7d\x7bb\x7d def foo()" = "Code" ∧
    categorize_content "\\frac\x7ba\x7d\x7bb\x7d def foo()" ≠ "LaTeX" ∧
    categorize_text (some "\\frac\x7ba\x7d\x7bb\x7d def foo()") = "Code/Math" := by
  refine ⟨by decide, by decide, by decide⟩

/-- C3 (amended): a string containing a LaTeX backslash-command indicator is
categorized `"LaTeX"` by `categorize_content` only when it contains none of
the Code indicators; Code indicators take precedence over LaTeX. -/
theorem c3_latex_when_no_code_indicator :
    ∀ s : String,
      (code_indicators.any (fun ind => containsSub ind.toList (strip s.toList))) = false →
      (latex_indicators.any (fun ind => containsSub ind.toList (strip s.toList))) = true →
      categorize_content s = "LaTeX" := by
  intro s hcode hlatex
  unfold categorize_content categorize_content_core
  rw [hcode, hlatex]
  rfl

/-- C3 witness: `"\sum x"` has a LaTeX indicator and no Code indicator, and
is categorized `"LaTeX"`. -/
theorem c3_latex_when_no_code_indicator_witness :
    categorize_content "\\sum x" = "LaTeX" :=
  c3_latex_when_no_code_indicator "\\sum x" (by decide) (by decide)

/-- C4 (corrected): the URL regex `https?://\S+|www\.\S+` requires a
non-whitespace character after the indicator, so `"www."` alone falls
through to `"Plaintext"`; and `categorize_content` has no URL category, so
even `"http://example.com"` is `"Plaintext"` there. -/
theorem c4_counterexample :
    categorize_text (some "www.") = "Plaintext" ∧
    categorize_text (some "www.") ≠ "URL" ∧
    categorize_content "http://example.com" = "Plaintext" := by
  refine ⟨by decide, by decide, by decide⟩

/-- C4 (amended): whenever the stripped text matches the URL regex — it
contains `http://`, `https://` or `www.` followed by a non-whitespace
character — `categorize_text` returns `"URL"`; `categorize_content` never
returns `"URL"` on any input. -/
theorem c4_url_category :
    ∀ s t : String, hasURL (strip s.toList) = true →
      categorize_text (some s) = "URL" ∧ categorize_content t ≠ "URL" := by
  intro s t h
  constructor
  · simp only [categorize_text, categorize_text_core, h]
    rfl
  · rcases categorize_content_core_cases (strip t.toList) with h1 | h1 | h1 | h1 <;>
      · unfold categorize_content
        rw [h1]
        decide

/-- C4 witness: `"see http://x"` matches the URL regex and is categorized
`"URL"` by `categorize_text`, while `categorize_content "http://x"` is not
`"URL"`. -/
theorem c4_url_category_witness :
    categorize_text (some "see http://x") = "URL" ∧
    categorize_content "http://x" ≠ "URL" :=
  c4_url_category "see http://x" "http://x" (by decide)

/-- C5 (corrected): the code has no `"Miscellaneous"` label: the utils
categorizer maps the empty string to `"Empty"`, and the backgroundapp
categorizer has no empty/whitespace rule at all and maps it to
`"Plaintext"`. -/
theorem c5_counterexample :
    categorize_text (some "") = "Empty" ∧
    categorize_text (some "") ≠ "Miscellaneous" ∧
    categorize_content "" = "Plaintext" ∧
    categorize_content "" ≠ "Miscellaneous" := by
  refine ⟨by decide, by decide, by decide, by decide⟩

/-- C5 (amended): every empty or all-whitespace string is categorized
`"Empty"` by the utils `categorize_text` and `"Plaintext"` by the
backgroundapp `categorize_content` (which has no empty category); neither
produces a label `"Miscellaneous"`. -/
theorem c5_empty_category :
    ∀ s : String, s.toList.all isPySpace = true →
      categorize_text (some s) = "Empty" ∧ categorize_content s = "Plaintext" := by
  intro s h
  have h0 : strip s.toList = [] := strip_eq_nil_of_all_space _ h
  simp only [categorize_text, categorize_content, h0]
  exact ⟨by decide, by decide⟩

/-- C5 witness: the single-space string is `"Empty"` for the utils
categorizer and `"Plaintext"` for the backgroundapp one. -/
theorem c5_empty_category_witness :
    categorize_text (some " ") = "Empty" ∧ categorize_content " " = "Plaintext" :=
  c5_empty_category " " (by decide)

/-- C10 (confirmed): `categorize_content` is total and returns exactly one
of the four labels `"Code"`, `"LaTeX"`, `"Quotes"`, `"Plaintext"` — in
particular never `"URL"`, `"Empty"`, `"Miscellaneous"` or `"Unknown"` —
while `categorize_text` returns `"Unknown"` on a missing (NaN) input, a
label outside the spec's closed category set. -/
theorem c10_label_sets :
    (∀ s : String,
      categorize_content s = "Code" ∨ categorize_content s = "LaTeX" ∨
      categorize_content s = "Quotes" ∨ categorize_content s = "Plaintext") ∧
    categorize_text none = "Unknown" ∧
    (∀ s : String, categorize_content s ≠ "Unknown" ∧ categorize_content s ≠ "URL" ∧
      categorize_content s ≠ "Empty" ∧ categorize_content s ≠ "Miscellaneous") := by
  refine ⟨fun s => categorize_content_core_cases (strip s.toList), rfl, fun s => ?_⟩
  rcases categorize_content_core_cases (strip s.toList) with h | h | h | h <;>
    · unfold categorize_content
      rw [h]
      refine ⟨by decide, by decide, by decide, by decide⟩

/-- Values accepted by the monitor loop were not in the `seen_entries` set
it started from. -/
lemma monitorRun_mem_not_seen :
    ∀ (polls : List String) (prev : String) (seen : List String) (x : String),
      x ∈ monitorRun prev seen polls → x ∉ seen := by
  intro polls
  induction polls with
  | nil =>
    intro prev seen x hx
    simp [monitorRun] at hx
  | cons c rest ih =>
    intro prev seen x hx hmem
    rw [monitorRun] at hx
    by_cases hc : c ≠ prev ∧ c ∉ seen
    · rw [if_pos hc] at hx
      rcases List.mem_cons.mp hx with rfl | hx'
      · exact hc.2 hmem
      · exact ih c (c :: seen) x hx' (List.mem_cons_of_mem _ hmem)
    · rw [if_neg hc] at hx
      exact ih prev seen x hx hmem

/-- The monitor never accepts the same content twice over a whole run: the
`seen_entries` set suppresses every historical duplicate. -/
lemma monitorRun_nodup :
    ∀ (polls : List String) (prev : String) (seen : List String),
      (monitorRun prev seen polls).Nodup := by
  intro polls
  induction polls with
  | nil =>
    intro prev seen
    simp [monitorRun]
  | cons c rest ih =>
    intro prev seen
    rw [monitorRun]
    by_cases hc : c ≠ prev ∧ c ∉ seen
    · rw [if_pos hc]
      refine List.nodup_cons.mpr ⟨?_, ih c (c :: seen)⟩
      intro hmem
      exact monitorRun_mem_not_seen rest c (c :: seen) c hmem (List.mem_cons_self _ _)
    · rw [if_neg hc]
      exact ih prev seen

/-- C1 (corrected): on the poll sequence `["A", "A", "B", "A"]` (initial
clipboard value `"init"`), the monitor accepts only 2 entries, `A` then
`B` — the final non-consecutive `"A"` is also suppressed, because the
monitors keep an unbounded `seen_entries` set, not just the last accepted
value. -/
theorem c1_counterexample :
    monitorAccepted "init" ["A", "A", "B", "A"] = ["A", "B"] ∧
    monitorAccepted "init" ["A", "A", "B", "A"] ≠ ["A", "B", "A"] ∧
    (monitorAccepted "init" ["A", "A", "B", "A"]).length = 2 := by
  refine ⟨by decide, by decide, by decide⟩

/-- C1 (amended): the monitor suppresses every poll whose value was ever
seen before (the `seen_entries` set starts from the initial clipboard
snapshot), so an accepted sequence never repeats a value; on the polls
`["A", "A", "B", "A"]` from a fresh initial value exactly 2 entries are
accepted, in order `A`, `B`. -/
theorem c1_dedup_suppresses_all_duplicates :
    ∀ (init : String) (polls : List String),
      (monitorAccepted init polls).Nodup ∧
      (init ≠ "A" → init ≠ "B" →
        monitorAccepted init ["A", "A", "B", "A"] = ["A", "B"]) := by
  intro init polls
  refine ⟨monitorRun_nodup polls init [init], fun h1 h2 => ?_⟩
  have h1' : "A" ≠ init := Ne.symm h1
  have h2' : "B" ≠ init := Ne.symm h2
  simp [monitorAccepted, monitorRun, h1', h2']

/-- C1 witness: the amended statement at the initial value `"init"`. -/
theorem c1_dedup_suppresses_all_duplicates_witness :
    (monitorAccepted "init" ["A", "A", "B", "A"]).Nodup ∧
    monitorAccepted "init" ["A", "A", "B", "A"] = ["A", "B"] := by
  have h := c1_dedup_suppresses_all_duplicates "init" ["A", "A", "B", "A"]
  exact ⟨h.1, h.2 (by decide) (by decide)⟩

/-- The polling loop with a stop request pending from the `k`-th iteration
boundary behaves exactly like the unstopped loop on the first `k` polls:
nothing read or accepted from the boundary on. -/
lemma monitorRunStopped_eq_take :
    ∀ (polls : List String) (k : Nat) (prev : String) (seen : List String),
      monitorRunStopped prev seen polls k = monitorRun prev seen (polls.take k) := by
  intro polls
  induction polls with
  | nil =>
    intro k prev seen
    cases k <;> simp [monitorRunStopped, monitorRun]
  | cons c rest ih =>
    intro k prev seen
    cases k with
    | zero => simp [monitorRunStopped, monitorRun]
    | succ k' =>
      rw [List.take_succ_cons, monitorRunStopped, monitorRun]
      by_cases hc : c ≠ prev ∧ c ∉ seen
      · rw [if_pos hc, if_pos hc, ih]
      · rw [if_neg hc, if_neg hc, ih]

/-- C9 (confirmed): `stop_monitoring` only clears the flag, so it is
idempotent and safe before `start_monitoring`; a started-then-stopped
monitor is inactive; and a loop whose flag is observed false from the
`k`-th iteration boundary performs exactly the first `k` iterations — no
clipboard value past that boundary is read or accepted. -/
theorem c9_stop_cooperative :
    (∀ m : MonitorState, stop_monitoring (stop_monitoring m) = stop_monitoring m) ∧
    stop_monitoring initMonitor = initMonitor ∧
    (stop_monitoring (start_monitoring initMonitor)).monitoring_active = false ∧
    (∀ (prev : String) (seen polls : List String) (k : Nat),
      monitorRunStopped prev seen polls k = monitorRun prev seen (polls.take k)) := by
  refine ⟨fun m => rfl, rfl, rfl, fun prev seen polls k => ?_⟩
  exact monitorRunStopped_eq_take polls k prev seen

/-- The bulk re-insert of `save_clipboard_data`: after it, the table rows
(ignoring their fresh AUTOINCREMENT ids) are exactly the given items. -/
lemma foldl_save_rows :
    ∀ (items : List Item) (db : ClipboardDB),
      ((items.foldl save_clipboard_item db).rows).map Prod.snd =
        db.rows.map Prod.snd ++ items.map rowOfItem := by
  intro items
  induction items with
  | nil => intro db; simp
  | cons it rest ih =>
    intro db
    rw [List.foldl_cons, ih]
    simp [save_clipboard_item]

/-- C2 (corrected): adding a new entry through the UI path does not append
to the persisted table — `add_clipboard_item` calls the bulk
`save_clipboard_data`, which first deletes every row and then re-inserts
the whole in-memory list under fresh AUTOINCREMENT ids.  Concretely, with
one stored row (id 1) the add leaves rows with ids 2 and 3, and the
resulting table is not the old table extended by one row. -/
theorem c2_counterexample :
    dbA.rows.map Prod.fst = [1] ∧
    ((add_clipboard_item [itemA] dbA itemB).2.rows).map Prod.fst = [2, 3] ∧
    ¬ ∃ r : Nat × DbRow, (add_clipboard_item [itemA] dbA itemB).2.rows = dbA.rows ++ [r] := by
  refine ⟨by decide, by decide, ?_⟩
  rintro ⟨r, h⟩
  have hmap := congrArg (List.map Prod.fst) h
  have hL : ((add_clipboard_item [itemA] dbA itemB).2.rows).map Prod.fst = [2, 3] := by decide
  have hR : (dbA.rows ++ [r]).map Prod.fst = [1, r.1] := by
    simp [dbA, save_clipboard_item, initDB]
  rw [hL, hR] at hmap
  exact absurd (List.head_eq_of_cons_eq hmap) (by decide)

/-- C2 (amended): the store state after an add is a full rewrite whose
content equals the new item prepended to the previous in-memory history
(most-recent-first); `clear_all_items` removes every row; the single-row
`save_clipboard_item` is the only operation that purely appends one row,
leaving existing rows untouched. -/
theorem c2_add_rewrites_table :
    (∀ (mem : List Item) (db : ClipboardDB) (item : Item),
      (add_clipboard_item mem db item).1 = item :: mem ∧
      ((add_clipboard_item mem db item).2.rows).map Prod.snd = (item :: mem).map rowOfItem) ∧
    (∀ db : ClipboardDB, (clear_all_items db).rows = []) ∧
    (∀ (db : ClipboardDB) (it : Item),
      (save_clipboard_item db it).rows = db.rows ++ [(db.nextId, rowOfItem it)]) := by
  refine ⟨fun mem db item => ⟨rfl, ?_⟩, fun db => rfl, fun db it => rfl⟩
  have h := foldl_save_rows (item :: mem) (clear_all_items db)
  simpa [add_clipboard_item, save_clipboard_data, clear_all_items] using h

/-- C7 (corrected): Python's `if limit:` treats `limit = 0` as falsy, so
`load_clipboard_data` with limit 0 omits the `LIMIT` clause and returns
every stored entry instead of at most 0. -/
theorem c7_counterexample :
    (load_clipboard_data dbA (some 0)).length = 1 ∧
    ¬ ((load_clipboard_data dbA (some 0)).length ≤ 0) := by
  refine ⟨by decide, by decide⟩

/-- C7 (amended): for a positive limit `n`, `load_clipboard_data` returns
the first `n` entries of the full most-recent-first listing (so at most `n`
results); with the limit omitted it returns all entries most-recent-first;
a limit of 0 behaves like an omitted limit. -/
theorem c7_limit_caps :
    ∀ (db : ClipboardDB) (n : Nat), 1 ≤ n →
      (load_clipboard_data db (some n) = (load_clipboard_data db none).take n ∧
       (load_clipboard_data db (some n)).length ≤ n) ∧
      load_clipboard_data db none = (db.rows.map (fun pr => itemOfRow pr.2)).reverse ∧
      load_clipboard_data db (some 0) = load_clipboard_data db none := by
  intro db n hn
  have hnz : n ≠ 0 := Nat.pos_iff_ne_zero.mp hn
  refine ⟨⟨?_, ?_⟩, rfl, rfl⟩
  · simp [load_clipboard_data, hnz]
  · simp [load_clipboard_data, hnz]

/-- C7 witness: the amended statement at the one-entry store and limit 1. -/
theorem c7_limit_caps_witness :
    load_clipboard_data dbA (some 1) = (load_clipboard_data dbA none).take 1 ∧
    (load_clipboard_data dbA (some 1)).length ≤ 1 ∧
    load_clipboard_data dbA (some 0) = load_clipboard_data dbA none := by
  have h := c7_limit_caps dbA 1 (by decide)
  exact ⟨h.1.1, h.1.2, h.2.2⟩

/-- C8 (confirmed): `filter_by_type` returns an order-preserving
subsequence of the full listing, every element of which has the requested
type, and it is exactly the listing filtered to that type (so no matching
entry is missed). -/
theorem c8_filter_by_type_subset :
    ∀ (db : ClipboardDB) (c : String),
      List.Sublist (filter_by_type db c) (load_clipboard_data db none) ∧
      (∀ e ∈ filter_by_type db c, e.type = c) ∧
      filter_by_type db c = (load_clipboard_data db none).filter (fun e => e.type == c) := by
  intro db c
  have hfe : filter_by_type db c =
      (load_clipboard_data db none).filter (fun e => e.type == c) := by
    simp [filter_by_type, load_clipboard_data, List.filter_reverse]
  refine ⟨?_, ?_, hfe⟩
  · rw [hfe]
    exact List.filter_sublist _
  · intro e he
    rw [hfe] at he
    exact beq_iff_eq.mp (List.mem_filter.mp he).2

/-- A trailing `%` matches any remaining text: some tail is empty. -/
lemma tails_any_isEmpty (s : List Char) :
    (s.tails.any (fun s2 => s2.isEmpty)) = true := by
  induction s with
  | nil => decide
  | cons c rest ih => simp [List.tails_cons, ih]

/-- On a wildcard-free pattern `t`, `LIKE` with pattern `t%` matches `s`
iff the ASCII-lowered `t` is a prefix of the ASCII-lowered `s`. -/
lemma likeMatch_plain_then_pct (t : List Char) (hw : ∀ c ∈ t, c ≠ '%' ∧ c ≠ '_') :
    ∀ s : List Char,
      likeMatch (t ++ ['%']) s = isPrefixB (t.map lowerAscii) (s.map lowerAscii) := by
  induction t with
  | nil =>
    intro s
    have h1 : likeMatch ['%'] s = true := by
      simp only [likeMatch]
      simp [tails_any_isEmpty s]
    simp [h1, isPrefixB]
  | cons a t' ih =>
    intro s
    have ha := hw a (List.mem_cons_self a t')
    cases s with
    | nil =>
      simp [likeMatch, ha.1, isPrefixB]
    | cons d s2 =>
      have ih' := ih (fun c hc => hw c (List.mem_cons_of_mem _ hc)) s2
      simp [likeMatch, ha.1, ha.2, isPrefixB, ih']

/-- Scanning every tail for a lowered prefix is exactly lowered substring
containment. -/
lemma tails_any_lowered (lt : List Char) :
    ∀ s : List Char,
      (s.tails.any (fun s2 => isPrefixB lt (s2.map lowerAscii))) =
        containsSub lt (s.map lowerAscii) := by
  intro s
  induction s with
  | nil => simp [containsSub]
  | cons c s' ih => simp [List.tails_cons, containsSub, ih]

/-- On a wildcard-free `t`, `LIKE '%t%'` is exactly case-insensitive
substring containment. -/
lemma likeMatch_pct_pat_pct (t : List Char) (hw : ∀ c ∈ t, c ≠ '%' ∧ c ≠ '_') :
    ∀ s : List Char,
      likeMatch ('%' :: (t ++ ['%'])) s = containsSub (t.map lowerAscii) (s.map lowerAscii) := by
  intro s
  have h1 : likeMatch ('%' :: (t ++ ['%'])) s =
      (s.tails.any (fun s2 => likeMatch (t ++ ['%']) s2)) := by
    simp [likeMatch]
  rw [h1]
  have h3 : (s.tails.any (fun s2 => likeMatch (t ++ ['%']) s2)) =
      (s.tails.any (fun s2 => isPrefixB (t.map lowerAscii) (s2.map lowerAscii))) := by
    simp only [likeMatch_plain_then_pct t hw]
  rw [h3, tails_any_lowered]

/-- C6 (corrected): the search term is spliced raw into the SQL `LIKE`
pattern, so `%` and `_` act as wildcards: searching `"a%b"` returns the
entry `"aXb"`, whose content does not contain the term. -/
theorem c6_counterexample :
    search_clipboard_items dbX "a%b" = [itemOfRow (rowOfItem itemX)] ∧
    containsCI "a%b" "aXb" = false := by
  refine ⟨by decide, by decide⟩

/-- C6 (amended): for a search term free of the `LIKE` wildcards `%` and
`_`, `search_clipboard_items` returns exactly the stored entries whose
content contains the term ASCII-case-insensitively, most-recent-first
(the filtered listing in reverse insertion order). -/
theorem c6_search_is_ci_containment :
    ∀ (db : ClipboardDB) (term : String),
      (term.toList.all (fun c => !(c == '%') && !(c == '_'))) = true →
      search_clipboard_items db term =
        ((db.rows.map (fun pr => itemOfRow pr.2)).filter
          (fun it => containsCI term it.content)).reverse ∧
      (∀ e ∈ search_clipboard_items db term, containsCI term e.content = true) := by
  intro db term hterm
  have hw : ∀ c ∈ term.toList, c ≠ '%' ∧ c ≠ '_' := by
    intro c hc
    have := List.all_eq_true.mp hterm c hc
    simp only [Bool.and_eq_true, Bool.not_eq_true', beq_eq_false_iff_ne] at this
    exact this
  have hpred : ∀ it : Item,
      likeMatch ('%' :: (term.toList ++ ['%'])) it.content.toList =
        containsCI term it.content := by
    intro it
    exact likeMatch_pct_pat_pct term.toList hw it.content.toList
  have hfe : search_clipboard_items db term =
      ((db.rows.map (fun pr => itemOfRow pr.2)).filter
        (fun it => containsCI term it.content)).reverse := by
    unfold search_clipboard_items
    congr 1
    exact List.filter_congr (fun it _ => hpred it)
  refine ⟨hfe, fun e he => ?_⟩
  rw [hfe] at he
  have := List.mem_reverse.mp he
  exact (List.mem_filter.mp this).2

/-- C6 witness: the amended statement at the one-entry store `dbX` and the
wildcard-free term `"XB"` (matched case-insensitively). -/
theorem c6_search_is_ci_containment_witness :
    search_clipboard_items dbX "XB" =
      ((dbX.rows.map (fun pr => itemOfRow pr.2)).filter
        (fun it => containsCI "XB" it.content)).reverse :=
  (c6_search_is_ci_containment dbX "XB" (by decide)).1

/-- C2 witness: the amended statement at the one-entry store. -/
theorem c2_add_rewrites_table_witness :
    (add_clipboard_item [itemA] dbA itemB).1 = itemB :: [itemA] ∧
    ((add_clipboard_item [itemA] dbA itemB).2.rows).map Prod.snd =
      (itemB :: [itemA]).map rowOfItem :=
  c2_add_rewrites_table.1 [itemA] dbA itemB

/-- C8 witness: the filter statement at the one-entry store and type
`"Plaintext"`. -/
theorem c8_filter_by_type_subset_witness :
    List.Sublist (filter_by_type dbA "Plaintext") (load_clipboard_data dbA none) ∧
    filter_by_type dbA "Plaintext" =
      (load_clipboard_data dbA none).filter (fun e => e.type == "Plaintext") :=
  ⟨(c8_filter_by_type_subset dbA "Plaintext").1,
   (c8_filter_by_type_subset dbA "Plaintext").2.2⟩

/-- C9 witness: stop is idempotent on a started monitor, and a stop taking
effect at the second iteration boundary keeps exactly the first two polls. -/
theorem c9_stop_cooperative_witness :
    stop_monitoring (stop_monitoring (start_monitoring initMonitor)) =
      stop_monitoring (start_monitoring initMonitor) ∧
    monitorRunStopped "init" ["init"] ["A", "B", "C"] 2 =
      monitorRun "init" ["init"] (["A", "B", "C"].take 2) :=
  ⟨c9_stop_cooperative.1 (start_monitoring initMonitor),
   c9_stop_cooperative.2.2.2 "init" ["init"] ["A", "B", "C"] 2⟩

/-- C10 witness: the label statement at a concrete input. -/
theorem c10_label_sets_witness :
    (categorize_content "x" = "Code" ∨ categorize_content "x" = "LaTeX" ∨
     categorize_content "x" = "Quotes" ∨ categorize_content "x" = "Plaintext") ∧
    categorize_text none = "Unknown" :=
  ⟨c10_label_sets.1 "x", c10_label_sets.2.1⟩
